import Mathlib

/-!
Verification of the LeverX student/room manager (Python package `LeverX_hw2`).

Shallow embedding notes.

The program manipulates JSON-like dictionaries.  The service
`RoomStudentService.combine_data` first runs the structural validators
(`validate_students_data` / `validate_rooms_data` in `utils/validation.py`)
which guarantee that every student record is a dict carrying the keys
`id` and `name`, and every room record is a dict carrying `id` and `name`.
We embed the records *after* this structural check as typed structures:

  * a student record has an `id` (key always present, value possibly
    `null`, hence `Option Int`), a `name` (key always present) and an
    optional `room` reference.  In Python a missing `room` key and
    `room = null` are indistinguishable to the service, because it only
    reads `student.get('room')`, which returns `None` in both cases;
    both are embedded as `room = none`.
  * a room record has an `id` (key present, possibly `null`) and a `name`.

Python dictionaries used as mutable maps (`room_lookup` and
`students_by_room`) are embedded as association lists with the exact
CPython semantics the service relies on: assigning to an existing key
overwrites in place, assigning to a fresh key appends the key at the end,
and `d.get(k, default)` returns the first (unique) binding or the default.

Exceptions (`ValidationError`, `DataExportError`, ...) are embedded as
`Except String _` / bespoke error structures carrying the message the
Python constructor builds.
-/

/-- A student record after structural validation: dict with keys
`id`, `name` and an optional `room` reference
(`src/LeverX_hw2/models/student.py`, consumed as raw dicts by the service). -/
structure StudentRec where
  id : Option Int
  name : String
  room : Option Int
deriving DecidableEq, Repr

/-- A room record after structural validation: dict with keys `id`, `name`. -/
structure RoomRec where
  id : Option Int
  name : String
deriving DecidableEq, Repr

/-- The projected `{'id': ..., 'name': ...}` dict built for each student in
`RoomStudentService._group_students_by_room` (the `room` key is dropped). -/
structure StudentData where
  id : Option Int
  name : String
deriving DecidableEq, Repr

/-- `CombinedRoom.to_dict()` output
(`src/LeverX_hw2/models/combined_room.py`): keys `id`, `name`, `students`. -/
structure CombinedRoom where
  id : Option Int
  name : String
  students : List StudentData
deriving DecidableEq, Repr

namespace RoomStudentService

/-- CPython dict assignment `d[k] = v`: overwrite the existing binding in
place, or append a fresh key at the end. -/
def dictInsert (m : List (Int × RoomRec)) (k : Int) (v : RoomRec) :
    List (Int × RoomRec) :=
  match m with
  | [] => [(k, v)]
  | kv :: rest => if kv.1 = k then (k, v) :: rest else kv :: dictInsert rest k v

/-- Python `k in d` membership test on the room lookup dict. -/
def containsKey (m : List (Int × RoomRec)) (k : Int) : Bool :=
  match m with
  | [] => false
  | kv :: rest => kv.1 == k || containsKey rest k

/-- `RoomStudentService._build_room_lookup`: one pass over rooms, inserting
`room_lookup[room['id']] = room` whenever the id is not `None`. -/
def build_room_lookup (rooms : List RoomRec) : List (Int × RoomRec) :=
  rooms.foldl
    (fun room_lookup room =>
      match room.id with
      | some room_id => dictInsert room_lookup room_id room
      | none => room_lookup)
    []

/-- The `students_by_room` dict update performed by
`_group_students_by_room`: `if room_id not in students_by_room:
students_by_room[room_id] = []` followed by
`students_by_room[room_id].append(student_data)` — append to the existing
bucket, or create a fresh singleton bucket at the end of the dict. -/
def bucketAppend (m : List (Int × List StudentData)) (k : Int)
    (v : StudentData) : List (Int × List StudentData) :=
  match m with
  | [] => [(k, [v])]
  | kv :: rest =>
    if kv.1 = k then (kv.1, kv.2 ++ [v]) :: rest else kv :: bucketAppend rest k v

/-- `students_by_room.get(room_id, [])` where `room_id = room.get('id')`
may be `None`; `None` is never a key of `students_by_room`. -/
def bucketGet (m : List (Int × List StudentData)) (k : Option Int) :
    List StudentData :=
  match k with
  | none => []
  | some k =>
    match m with
    | [] => []
    | kv :: rest => if kv.1 = k then kv.2 else bucketGet rest (some k)

/-- The `student_data = {'id': student.get('id'), 'name':
student.get('name', 'Unknown')}` projection.  After structural validation
the `name` key is always present, so the `'Unknown'` default is dead. -/
def projectStudent (s : StudentRec) : StudentData := ⟨s.id, s.name⟩

/-- Loop body of `RoomStudentService._group_students_by_room`: a student
is appended to the bucket of room `rid` when `student.get('room')` is not
`None` and `rid` is a key of the lookup; otherwise it is appended to the
unassigned list. -/
def groupStep (room_lookup : List (Int × RoomRec))
    (acc : List (Int × List StudentData) × List StudentData)
    (student : StudentRec) :
    List (Int × List StudentData) × List StudentData :=
  let student_data := projectStudent student
  match student.room with
  | some room_id =>
    if containsKey room_lookup room_id then
      (bucketAppend acc.1 room_id student_data, acc.2)
    else
      (acc.1, acc.2 ++ [student_data])
  | none => (acc.1, acc.2 ++ [student_data])

/-- `RoomStudentService._group_students_by_room`: single pass over the
students, returning `(students_by_room, unassigned_students)`. -/
def group_students_by_room (students : List StudentRec)
    (room_lookup : List (Int × RoomRec)) :
    List (Int × List StudentData) × List StudentData :=
  students.foldl (groupStep room_lookup) ([], [])

/-- `RoomStudentService._build_combined_rooms`: one `CombinedRoom` per
input room, in input order, with `students_by_room.get(room_id, [])`. -/
def build_combined_rooms (rooms : List RoomRec)
    (students_by_room : List (Int × List StudentData)) : List CombinedRoom :=
  rooms.map (fun room => ⟨room.id, room.name, bucketGet students_by_room room.id⟩)

/-- `RoomStudentService._validate_business_rules`: collect the non-null
room ids and the non-null student ids; `len(ids) != len(set(ids))`
(embedded as comparing with the deduplicated length) raises
`ValidationError` naming the offending collection. -/
def validate_business_rules (students : List StudentRec)
    (rooms : List RoomRec) : Except String Unit :=
  let room_ids := rooms.filterMap (fun room => room.id)
  if room_ids.length ≠ room_ids.dedup.length then
    .error "Duplicate room IDs found"
  else
    let student_ids := students.filterMap (fun student => student.id)
    if student_ids.length ≠ student_ids.dedup.length then
      .error "Duplicate student IDs found"
    else
      .ok ()

/-- `RoomStudentService.validate_input_data`: `validate_students_data`
and `validate_rooms_data` check key presence only, which the typed
embedding guarantees, so only `_validate_business_rules` remains. -/
def validate_input_data (students : List StudentRec) (rooms : List RoomRec) :
    Except String Unit :=
  validate_business_rules students rooms

/-- `RoomStudentService.combine_data`: validate, build the room lookup,
group the students, emit one combined room per input room, and append the
synthetic `Unassigned Students` entry when the unassigned list is
non-empty (Python truthiness of a list). -/
def combine_data (students : List StudentRec) (rooms : List RoomRec) :
    Except String (List CombinedRoom) :=
  match validate_input_data students rooms with
  | .error e => .error e
  | .ok _ =>
    let room_lookup := build_room_lookup rooms
    let grouped := group_students_by_room students room_lookup
    let result := build_combined_rooms rooms grouped.1
    if grouped.2.isEmpty then
      .ok result
    else
      .ok (result ++ [⟨none, "Unassigned Students", grouped.2⟩])

/-- The list of non-null room ids, in input order: the multiset whose
duplicates `_validate_business_rules` rejects. -/
def roomIds (rooms : List RoomRec) : List Int :=
  rooms.filterMap (fun room => room.id)

/-- The list of non-null student ids, in input order. -/
def studentIds (students : List StudentRec) : List Int :=
  students.filterMap (fun student => student.id)

/-- Spec wording (section 4.2 step 4): a student is unassigned when its
room reference is null/absent or names no non-null room id. -/
def isUnassigned (rooms : List RoomRec) (s : StudentRec) : Bool :=
  match s.room with
  | none => true
  | some k => !(decide (k ∈ roomIds rooms))

/-- Spec wording (section 4.2 step 6): the unassigned students, projected
to `{id, name}`, in their original relative order. -/
def unassignedList (students : List StudentRec) (rooms : List RoomRec) :
    List StudentData :=
  (students.filter (isUnassigned rooms)).map projectStudent

/-- Spec wording (section 4.2 steps 4-5): the bucket of one room — the
students whose reference equals this room's non-null id, in input order.
A room whose id is null can never be referenced (the lookup skips it). -/
def bucketFor (students : List StudentRec) (room : RoomRec) :
    List StudentData :=
  match room.id with
  | none => []
  | some k => (students.filter (fun s => s.room == some k)).map projectStudent

/-- Spec wording: one CombinedRoom per input room, carrying its bucket. -/
def combinedFor (students : List StudentRec) (room : RoomRec) : CombinedRoom :=
  ⟨room.id, room.name, bucketFor students room⟩

/-- Spec wording (section 4.2 steps 5-6): per-room records in input order,
then the synthetic trailing entry iff any student is unassigned. -/
def specOutput (students : List StudentRec) (rooms : List RoomRec) :
    List CombinedRoom :=
  rooms.map (combinedFor students) ++
    (if unassignedList students rooms = [] then []
     else [⟨none, "Unassigned Students", unassignedList students rooms⟩])

/-- The branch condition of `_group_students_by_room`: the student's room
reference is non-null and a key of the lookup. -/
def assignedB (room_lookup : List (Int × RoomRec)) (s : StudentRec) : Bool :=
  match s.room with
  | some rid => containsKey room_lookup rid
  | none => false

/-- Bucket membership predicate of one room: the student's reference
equals this room's non-null id. -/
def roomPred (room : RoomRec) (s : StudentRec) : Bool :=
  match room.id with
  | some k => s.room == some k
  | none => false

end RoomStudentService

namespace CLIController

/-- `CLIController._process_data` (src/LeverX_hw2/cli/cli_controller.py):
calls `RoomStudentService.combine_data` and catches `ValidationError e`,
re-raising `ValidationError(f"Data processing failed: {e}")` — a new
error object whose message is the original prefixed with stage context. -/
def process_data (students : List StudentRec) (rooms : List RoomRec) :
    Except String (List CombinedRoom) :=
  match RoomStudentService.combine_data students rooms with
  | .ok combined_data => .ok combined_data
  | .error e => .error ("Data processing failed: " ++ e)

end CLIController

/-- The apostrophe character (written via its code point). -/
def apos : Char := Char.ofNat 39

/-- The apostrophe as a one-character string. -/
def aposStr : String := String.singleton apos

namespace XMLExporter

/-- One pass of Python `str.replace(old, new)` for a one-character
pattern: every occurrence of `old` becomes `new`. -/
def replaceChar (old : Char) (new : List Char) : List Char → List Char
  | [] => []
  | c :: rest => (if c = old then new else [c]) ++ replaceChar old new rest

/-- `XMLExporter._escape_xml_content`: five sequential `str.replace`
passes in source order — `&`, `<`, `>`, `"`, then the apostrophe. -/
def escape_xml_content (s : List Char) : List Char :=
  replaceChar apos "&apos;".toList
    (replaceChar '"' "&quot;".toList
      (replaceChar '>' "&gt;".toList
        (replaceChar '<' "&lt;".toList
          (replaceChar '&' "&amp;".toList s))))

/-- CPython `xml.etree.ElementTree.tostring` escapes element text via
`_escape_cdata`: `&`, then `<`, then `>` (stdlib behaviour, modelled for
the `tostring(root)` call in `XMLExporter._generate_xml`). -/
def etree_escape_cdata (s : List Char) : List Char :=
  replaceChar '>' "&gt;".toList
    (replaceChar '<' "&lt;".toList
      (replaceChar '&' "&amp;".toList s))

/-- CPython `xml.dom.minidom` text serialisation (`_write_data`, used by
`toprettyxml`) escapes `&`, `<`, `"`, `>` in that order. -/
def minidom_escape (s : List Char) : List Char :=
  replaceChar '>' "&gt;".toList
    (replaceChar '"' "&quot;".toList
      (replaceChar '<' "&lt;".toList
        (replaceChar '&' "&amp;".toList s)))

/-- XML parser entity resolution for text content: a single left-to-right
scan replacing each of the five standard entities once (used both for the
`minidom.parseString` step inside `_generate_xml` and to state what a
consumer parsing the exported document reads back). -/
def xml_unescape : List Char → List Char
  | [] => []
  | '&' :: 'a' :: 'm' :: 'p' :: ';' :: rest => '&' :: xml_unescape rest
  | '&' :: 'l' :: 't' :: ';' :: rest => '<' :: xml_unescape rest
  | '&' :: 'g' :: 't' :: ';' :: rest => '>' :: xml_unescape rest
  | '&' :: 'q' :: 'u' :: 'o' :: 't' :: ';' :: rest => '"' :: xml_unescape rest
  | '&' :: 'a' :: 'p' :: 'o' :: 's' :: ';' :: rest => apos :: xml_unescape rest
  | c :: rest => c :: xml_unescape rest

/-- The character data that `XMLExporter._generate_xml` puts inside a
`<name>` element of the final document for an original name `s`:
`_escape_xml_content`, then ElementTree's `tostring` text escaping, then
the `minidom.parseString` / `toprettyxml` round trip (entity resolution
followed by `_write_data` escaping). -/
def nameDocText (s : List Char) : List Char :=
  minidom_escape (xml_unescape (etree_escape_cdata (escape_xml_content s)))

end XMLExporter

namespace DataExporterFactory

/-- The two registered exporter classes. -/
inductive ExporterKind where
  | json
  | xml
deriving DecidableEq, Repr

/-- `UnsupportedFormatError` (src/LeverX_hw2/exceptions/custom_exceptions.py):
carries the requested name, the registered identifiers, and the message
built by its constructor. -/
structure UnsupportedFormatError where
  format_name : String
  supported_formats : List String
  message : String
deriving DecidableEq, Repr

/-- Python `str.lower()` (the format identifiers are ASCII, where
character-wise `Char.toLower` coincides with Python's lowercasing). -/
def pyLower (s : String) : String := String.mk (s.toList.map Char.toLower)

/-- `UnsupportedFormatError.__init__`. -/
def mkUnsupportedFormatError (format_name : String)
    (supported_formats : List String) : UnsupportedFormatError :=
  ⟨format_name, supported_formats,
    "Unsupported format " ++ aposStr ++ format_name ++ aposStr
      ++ ". Supported formats: " ++ String.intercalate ", " supported_formats⟩

/-- The `_exporters` class registry, in source order. -/
def exporters : List (String × ExporterKind) :=
  [("json", ExporterKind.json), ("xml", ExporterKind.xml)]

/-- `DataExporterFactory.create_exporter`: lowercase the requested name,
look it up in the registry, and raise `UnsupportedFormatError` with the
registered identifiers when absent. -/
def create_exporter (format_name : String) :
    Except UnsupportedFormatError ExporterKind :=
  let format_lower := pyLower format_name
  match exporters.lookup format_lower with
  | some exporter_class => .ok exporter_class
  | none =>
    .error (mkUnsupportedFormatError format_name
      (exporters.map (fun kv => kv.1)))

end DataExporterFactory

namespace Exporters

/-- A record as the exporters receive it: either not a dict at all, or a
dict described by its key set (values are irrelevant to the mandatory-key
validation). -/
inductive RawRecord where
  | notDict
  | dict (keys : List String)
deriving DecidableEq, Repr

/-- The `required_fields` list of both exporters. -/
def required_fields : List String := ["id", "name", "students"]

/-- The inner loop of `validate_output_data`: the first required field
absent from the record's keys, in `required_fields` order. -/
def firstMissingField (keys : List String) : Option String :=
  required_fields.find? (fun field => !(keys.contains field))

/-- `JSONExporter.validate_output_data` and `XMLExporter.validate_output_data`
(textually identical in the two source files): walk the records with their
`enumerate` index; a non-dict record or a record missing a required field
raises `DataExportError` naming the index (and the field). -/
def validate_output_data : Nat → List RawRecord → Except String Bool
  | _, [] => .ok true
  | i, RawRecord.notDict :: _ =>
    .error ("Record at index " ++ toString i ++ " must be a dictionary")
  | i, RawRecord.dict keys :: rest =>
    match firstMissingField keys with
    | some field =>
      .error ("Record at index " ++ toString i
        ++ " missing required field: " ++ field)
    | none => validate_output_data (i + 1) rest

/-- Observable outcome of one `export` call: the raised-or-returned
result plus how many writes to the destination happened. -/
structure ExportOutcome where
  result : Except String Unit
  writes : Nat
deriving Repr

/-- `JSONExporter.export` / `XMLExporter.export` (named `exportData` here
because `export` is reserved in Lean): validate first; only on
success create directories and write the file (one write); any exception
is caught and wrapped as `DataExportError(f"Failed to export {label}
data: {e}", output_path)`, so a validation failure aborts before any
filesystem effect. -/
def exportData (label : String) (data : List RawRecord) : ExportOutcome :=
  match validate_output_data 0 data with
  | .ok _ => ⟨.ok (), 1⟩
  | .error e => ⟨.error ("Failed to export " ++ label ++ " data: " ++ e), 0⟩

/-- `JSONExporter.export` with its wrap label. -/
def JSONExporter_export (data : List RawRecord) : ExportOutcome :=
  exportData "JSON" data

/-- `XMLExporter.export` with its wrap label. -/
def XMLExporter_export (data : List RawRecord) : ExportOutcome :=
  exportData "XML" data

/-- A record passing the mandatory-key check. -/
def validRecordB : RawRecord → Bool
  | RawRecord.notDict => false
  | RawRecord.dict keys => required_fields.all (fun field => keys.contains field)

end Exporters

namespace RoomStudentService

lemma containsKey_dictInsert (m : List (Int × RoomRec)) (k' k : Int)
    (v : RoomRec) :
    containsKey (dictInsert m k' v) k = (k' == k || containsKey m k) := by
  induction m with
  | nil => simp [dictInsert, containsKey]
  | cons kv rest ih =>
    by_cases h : kv.1 = k'
    · simp only [dictInsert, h, if_pos, containsKey]
      cases hk : (k' == k) <;> simp [hk]
    · simp only [dictInsert, h, if_neg, not_false_iff, containsKey, ih]
      cases hk : (k' == k) <;> cases hd : (kv.1 == k) <;> simp [hk, hd]

lemma containsKey_build_room_lookup_aux (rooms : List RoomRec) :
    ∀ (m : List (Int × RoomRec)) (k : Int),
    containsKey
      (rooms.foldl
        (fun room_lookup room =>
          match room.id with
          | some room_id => dictInsert room_lookup room_id room
          | none => room_lookup) m) k
      = (containsKey m k || decide (k ∈ roomIds rooms)) := by
  induction rooms with
  | nil => simp [roomIds]
  | cons room rest ih =>
    intro m k
    cases h : room.id with
    | none =>
      simp [List.foldl_cons, h, ih, roomIds, List.filterMap_cons]
    | some rid =>
      simp only [List.foldl_cons, h, ih, containsKey_dictInsert]
      have hids : roomIds (room :: rest) = rid :: roomIds rest := by
        simp [roomIds, List.filterMap_cons, h]
      rw [hids]
      rcases eq_or_ne k rid with hk | hk
      · subst hk
        simp
      · have h1 : (rid == k) = false := by simp [Ne.symm hk]
        simp [h1, hk, List.mem_cons]

/-- Membership in the room lookup is exactly membership in the non-null
room ids. -/
lemma containsKey_build_room_lookup (rooms : List RoomRec) (k : Int) :
    containsKey (build_room_lookup rooms) k = decide (k ∈ roomIds rooms) := by
  have h := containsKey_build_room_lookup_aux rooms [] k
  simpa [build_room_lookup, containsKey] using h

lemma bucketGet_bucketAppend (m : List (Int × List StudentData)) (k' k : Int)
    (v : StudentData) :
    bucketGet (bucketAppend m k' v) (some k)
      = if k = k' then bucketGet m (some k) ++ [v]
        else bucketGet m (some k) := by
  induction m with
  | nil =>
    by_cases h : k = k'
    · simp [bucketAppend, bucketGet, h]
    · simp [bucketAppend, bucketGet, h, Ne.symm h]
  | cons kv rest ih =>
    by_cases hkv : kv.1 = k'
    · by_cases h : k = k'
      · simp [bucketAppend, bucketGet, hkv, h]
      · have hne : kv.1 ≠ k := by rw [hkv]; exact Ne.symm h
        simp [bucketAppend, bucketGet, hkv, h, hne, Ne.symm h]
    · by_cases hk : kv.1 = k
      · have h : k ≠ k' := fun hc => hkv (hk.trans hc)
        simp [bucketAppend, bucketGet, hkv, hk, h]
      · simp [bucketAppend, bucketGet, hkv, hk, ih]

lemma groupStep_foldl (room_lookup : List (Int × RoomRec)) :
    ∀ (students : List StudentRec)
      (m : List (Int × List StudentData)) (u : List StudentData),
      (∀ k : Int,
        bucketGet (students.foldl (groupStep room_lookup) (m, u)).1 (some k)
          = bucketGet m (some k) ++
              (students.filter
                  (fun s => s.room == some k && containsKey room_lookup k)).map
                projectStudent) ∧
      (students.foldl (groupStep room_lookup) (m, u)).2
        = u ++ (students.filter
              (fun s => !(assignedB room_lookup s))).map projectStudent := by
  intro students
  induction students with
  | nil => intro m u; simp
  | cons s rest ih =>
    intro m u
    cases hr : s.room with
    | none =>
      have hstep : groupStep room_lookup (m, u) s = (m, u ++ [projectStudent s]) := by
        simp [groupStep, hr]
      constructor
      · intro k
        have h1 := (ih m (u ++ [projectStudent s])).1 k
        simp only [List.foldl_cons, hstep]
        rw [h1]
        simp [List.filter_cons, hr]
      · have h2 := (ih m (u ++ [projectStudent s])).2
        simp only [List.foldl_cons, hstep]
        rw [h2]
        simp [List.filter_cons, assignedB, hr]
    | some rid =>
      by_cases hc : containsKey room_lookup rid = true
      · have hstep : groupStep room_lookup (m, u) s
            = (bucketAppend m rid (projectStudent s), u) := by
          simp [groupStep, hr, hc]
        constructor
        · intro k
          have h1 := (ih (bucketAppend m rid (projectStudent s)) u).1 k
          simp only [List.foldl_cons, hstep]
          rw [h1, bucketGet_bucketAppend]
          by_cases hk : k = rid
          · subst hk
            simp [List.filter_cons, hr, hc]
          · have : (s.room == some k) = false := by
              simp [hr, Ne.symm hk]
            simp [List.filter_cons, this, hk]
        · have h2 := (ih (bucketAppend m rid (projectStudent s)) u).2
          simp only [List.foldl_cons, hstep]
          rw [h2]
          simp [List.filter_cons, assignedB, hr, hc]
      · have hcf : containsKey room_lookup rid = false := by
          simpa using hc
        have hstep : groupStep room_lookup (m, u) s = (m, u ++ [projectStudent s]) := by
          simp [groupStep, hr, hcf]
        constructor
        · intro k
          have h1 := (ih m (u ++ [projectStudent s])).1 k
          simp only [List.foldl_cons, hstep]
          rw [h1]
          by_cases hk : k = rid
          · subst hk
            simp [List.filter_cons, hcf]
          · have : (s.room == some k) = false := by
              simp [hr, Ne.symm hk]
            simp [List.filter_cons, this]
        · have h2 := (ih m (u ++ [projectStudent s])).2
          simp only [List.foldl_cons, hstep]
          rw [h2]
          simp [List.filter_cons, assignedB, hr, hcf]

lemma not_assignedB (rooms : List RoomRec) (s : StudentRec) :
    (!(assignedB (build_room_lookup rooms) s)) = isUnassigned rooms s := by
  cases h : s.room <;>
    simp [assignedB, isUnassigned, h, containsKey_build_room_lookup]

/-- The unassigned list built by the service equals the spec's. -/
lemma group_students_by_room_snd (students : List StudentRec)
    (rooms : List RoomRec) :
    (group_students_by_room students (build_room_lookup rooms)).2
      = unassignedList students rooms := by
  have h := (groupStep_foldl (build_room_lookup rooms) students [] []).2
  unfold group_students_by_room unassignedList
  rw [h]
  simp only [List.nil_append]
  congr 1
  exact List.filter_congr (fun s _ => not_assignedB rooms s)

/-- The bucket the service stores for room id `k` equals the spec's. -/
lemma group_students_by_room_fst (students : List StudentRec)
    (rooms : List RoomRec) (k : Int) :
    bucketGet (group_students_by_room students (build_room_lookup rooms)).1
        (some k)
      = if k ∈ roomIds rooms
        then (students.filter (fun s => s.room == some k)).map projectStudent
        else [] := by
  have h := (groupStep_foldl (build_room_lookup rooms) students [] []).1 k
  unfold group_students_by_room
  rw [h]
  simp only [bucketGet, List.nil_append]
  by_cases hk : k ∈ roomIds rooms
  · have hc : containsKey (build_room_lookup rooms) k = true := by
      simp [containsKey_build_room_lookup, hk]
    rw [if_pos hk]
    congr 1
    exact List.filter_congr (fun s _ => by simp [hc])
  · have hc : containsKey (build_room_lookup rooms) k = false := by
      simp [containsKey_build_room_lookup, hk]
    rw [if_neg hk]
    simp [hc]

lemma dedup_length_eq_iff {l : List Int} :
    l.length = l.dedup.length ↔ l.Nodup := by
  constructor
  · intro h
    exact List.dedup_eq_self.mp ((List.dedup_sublist l).eq_of_length h.symm)
  · intro h
    rw [List.dedup_eq_self.mpr h]

lemma validate_input_data_ok (students : List StudentRec)
    (rooms : List RoomRec) (hR : (roomIds rooms).Nodup)
    (hS : (studentIds students).Nodup) :
    validate_input_data students rooms = .ok () := by
  unfold validate_input_data validate_business_rules
  rw [if_neg, if_neg]
  · simp only [studentIds] at hS
    simp [dedup_length_eq_iff.mpr hS]
  · simp only [roomIds] at hR
    simp [dedup_length_eq_iff.mpr hR]

lemma validate_input_data_dup_rooms (students : List StudentRec)
    (rooms : List RoomRec) (hR : ¬(roomIds rooms).Nodup) :
    validate_input_data students rooms = .error "Duplicate room IDs found" := by
  unfold validate_input_data validate_business_rules
  rw [if_pos]
  intro h
  exact hR (dedup_length_eq_iff.mp h)

lemma validate_input_data_dup_students (students : List StudentRec)
    (rooms : List RoomRec) (hR : (roomIds rooms).Nodup)
    (hS : ¬(studentIds students).Nodup) :
    validate_input_data students rooms
      = .error "Duplicate student IDs found" := by
  unfold validate_input_data validate_business_rules
  rw [if_neg, if_pos]
  · intro h
    exact hS (dedup_length_eq_iff.mp h)
  · simp only [roomIds] at hR
    simp [dedup_length_eq_iff.mpr hR]

/-- The per-room records built by the service equal the spec's. -/
lemma build_combined_rooms_eq (students : List StudentRec)
    (rooms : List RoomRec) :
    build_combined_rooms rooms
        (group_students_by_room students (build_room_lookup rooms)).1
      = rooms.map (combinedFor students) := by
  unfold build_combined_rooms
  apply List.map_congr_left
  intro room hmem
  unfold combinedFor
  cases h : room.id with
  | none => simp [bucketGet, bucketFor, h]
  | some k =>
    have hk : k ∈ roomIds rooms := List.mem_filterMap.mpr ⟨room, hmem, h⟩
    rw [group_students_by_room_fst, if_pos hk]
    simp [bucketFor, h]

/-- Full functional characterisation of the service: on inputs passing
the duplicate-id checks, `combine_data` returns exactly the output the
spec describes (per-room records in input order, then the synthetic
unassigned entry iff some student is unassigned). -/
lemma combine_data_eq_specOutput (students : List StudentRec)
    (rooms : List RoomRec) (hR : (roomIds rooms).Nodup)
    (hS : (studentIds students).Nodup) :
    combine_data students rooms = .ok (specOutput students rooms) := by
  unfold combine_data
  rw [validate_input_data_ok students rooms hR hS]
  simp only [group_students_by_room_snd, build_combined_rooms_eq]
  unfold specOutput
  by_cases h : unassignedList students rooms = []
  · simp [h]
  · simp [h, List.isEmpty_iff]

lemma unassignedList_eq_nil_iff (students : List StudentRec)
    (rooms : List RoomRec) :
    unassignedList students rooms = []
      ↔ students.any (isUnassigned rooms) = false := by
  constructor
  · intro h
    rw [List.any_eq_false]
    intro s hs
    by_contra hcon
    have hmem : projectStudent s ∈ unassignedList students rooms := by
      unfold unassignedList
      exact List.mem_map_of_mem _
        (List.mem_filter.mpr ⟨hs, by simpa using hcon⟩)
    rw [h] at hmem
    exact absurd hmem (List.not_mem_nil _)
  · intro h
    rw [List.any_eq_false] at h
    unfold unassignedList
    rw [List.filter_eq_nil_iff.mpr (fun s hs => by simp [h s hs])]
    rfl

lemma bucketFor_eq_filter (students : List StudentRec) (room : RoomRec) :
    bucketFor students room
      = (students.filter (roomPred room)).map projectStudent := by
  cases h : room.id with
  | none => simp [bucketFor, roomPred, h]
  | some k =>
    simp only [bucketFor, h]
    congr 1
    apply List.filter_congr
    intro s _
    simp [roomPred, h]

lemma flatten_filter_cons_perm {α : Type} (x : α) (rest : List α)
    (l₁ : List (α → Bool)) (p : α → Bool) (l₂ : List (α → Bool))
    (hpx : p x = true)
    (h1 : ∀ p1 ∈ l₁, p1 x = false) (h2 : ∀ p2 ∈ l₂, p2 x = false) :
    (((l₁ ++ p :: l₂).map (fun c => (x :: rest).filter c)).flatten).Perm
      (x :: ((l₁ ++ p :: l₂).map (fun c => rest.filter c)).flatten) := by
  have e1 : l₁.map (fun c => (x :: rest).filter c)
      = l₁.map (fun c => rest.filter c) :=
    List.map_congr_left (fun c hc => by simp [List.filter_cons, h1 c hc])
  have e2 : l₂.map (fun c => (x :: rest).filter c)
      = l₂.map (fun c => rest.filter c) :=
    List.map_congr_left (fun c hc => by simp [List.filter_cons, h2 c hc])
  have ep : (x :: rest).filter p = x :: rest.filter p := by
    simp [List.filter_cons, hpx]
  simp only [List.map_append, List.map_cons, List.flatten_append,
    List.flatten_cons, e1, e2, ep, List.cons_append, List.append_assoc]
  exact List.perm_middle

/-- Generic partition argument: if each element of `xs` satisfies either
`q` alone or exactly one predicate of `preds` (and not `q`), then the
concatenation of all the filter buckets followed by the `q` bucket is a
permutation of `xs`. -/
lemma flatten_filter_perm {α : Type} (q : α → Bool) (preds : List (α → Bool)) :
    ∀ xs : List α,
      (∀ x ∈ xs,
        (q x = true ∧ ∀ p ∈ preds, p x = false) ∨
        (q x = false ∧ ∃ l₁ p l₂, preds = l₁ ++ p :: l₂ ∧ p x = true ∧
          (∀ p1 ∈ l₁, p1 x = false) ∧ (∀ p2 ∈ l₂, p2 x = false))) →
      ((preds.map (fun p => xs.filter p)).flatten ++ xs.filter q).Perm xs := by
  intro xs
  induction xs with
  | nil => intro _; simp
  | cons x rest ih =>
    intro h
    have hrest := ih (fun y hy => h y (List.mem_cons_of_mem _ hy))
    rcases h x (List.mem_cons_self _ _) with ⟨hq, hall⟩ |
      ⟨hq, l₁, p, l₂, hdec, hpx, h1, h2⟩
    · have hfilters : preds.map (fun p => (x :: rest).filter p)
          = preds.map (fun p => rest.filter p) :=
        List.map_congr_left (fun p hp => by simp [List.filter_cons, hall p hp])
      rw [hfilters, show (x :: rest).filter q = x :: rest.filter q by
        simp [List.filter_cons, hq]]
      exact List.Perm.trans List.perm_middle (hrest.cons x)
    · subst hdec
      rw [show (x :: rest).filter q = rest.filter q by
        simp [List.filter_cons, hq]]
      refine List.Perm.trans
        ((flatten_filter_cons_perm x rest l₁ p l₂ hpx h1 h2).append_right _) ?_
      simp only [List.cons_append]
      exact hrest.cons x

/-- With no duplicate non-null room ids, every student satisfies either
the unassigned predicate alone, or the bucket predicate of exactly one
room. -/
lemma exactly_one_pred (rooms : List RoomRec) (hR : (roomIds rooms).Nodup)
    (s : StudentRec) :
    (isUnassigned rooms s = true ∧ ∀ p ∈ rooms.map roomPred, p s = false) ∨
    (isUnassigned rooms s = false ∧ ∃ l₁ p l₂,
      rooms.map roomPred = l₁ ++ p :: l₂ ∧ p s = true ∧
      (∀ p1 ∈ l₁, p1 s = false) ∧ (∀ p2 ∈ l₂, p2 s = false)) := by
  cases hr : s.room with
  | none =>
    left
    refine ⟨by simp [isUnassigned, hr], ?_⟩
    intro p hp
    obtain ⟨room, hroom, rfl⟩ := List.mem_map.mp hp
    cases hid : room.id <;> simp [roomPred, hid, hr]
  | some k =>
    by_cases hk : k ∈ roomIds rooms
    · right
      refine ⟨by simp [isUnassigned, hr, hk], ?_⟩
      obtain ⟨room, hroom, hid⟩ := List.mem_filterMap.mp hk
      obtain ⟨r1, r2, hsplit⟩ := List.append_of_mem hroom
      subst hsplit
      have hids : roomIds (r1 ++ room :: r2) = roomIds r1 ++ k :: roomIds r2 := by
        simp [roomIds, List.filterMap_append, List.filterMap_cons, hid]
      rw [hids] at hR
      have hnd := List.nodup_append.mp hR
      refine ⟨r1.map roomPred, roomPred room, r2.map roomPred, by simp, ?_, ?_, ?_⟩
      · simp [roomPred, hid, hr]
      · intro p1 hp1
        obtain ⟨r3, hr3, rfl⟩ := List.mem_map.mp hp1
        cases hid2 : r3.id with
        | none => simp [roomPred, hid2]
        | some k2 =>
          have hk2 : k2 ∈ roomIds r1 := List.mem_filterMap.mpr ⟨r3, hr3, hid2⟩
          have hne : k ≠ k2 := by
            intro he
            exact hnd.2.2 (he ▸ hk2) (List.mem_cons_self _ _)
          simp [roomPred, hid2, hr, hne]
      · intro p2 hp2
        obtain ⟨r3, hr3, rfl⟩ := List.mem_map.mp hp2
        cases hid2 : r3.id with
        | none => simp [roomPred, hid2]
        | some k2 =>
          have hk2 : k2 ∈ roomIds r2 := List.mem_filterMap.mpr ⟨r3, hr3, hid2⟩
          have hne : k ≠ k2 := by
            intro he
            exact (List.nodup_cons.mp hnd.2.1).1 (he ▸ hk2)
          simp [roomPred, hid2, hr, hne]
    · left
      refine ⟨by simp [isUnassigned, hr, hk], ?_⟩
      intro p hp
      obtain ⟨r3, hr3, rfl⟩ := List.mem_map.mp hp
      cases hid2 : r3.id with
      | none => simp [roomPred, hid2]
      | some k2 =>
        have hk2 : k2 ∈ roomIds rooms := List.mem_filterMap.mpr ⟨r3, hr3, hid2⟩
        have hne : k ≠ k2 := fun he => hk (he ▸ hk2)
        simp [roomPred, hid2, hr, hne]

/-- The flattened student lists of the spec output: all room buckets,
then the unassigned students. -/
lemma specOutput_flatten (students : List StudentRec) (rooms : List RoomRec) :
    ((specOutput students rooms).map (fun cr => cr.students)).flatten
      = (rooms.map (fun r => bucketFor students r)).flatten
          ++ unassignedList students rooms := by
  unfold specOutput
  by_cases h : unassignedList students rooms = [] <;>
    simp [h, List.map_map] <;>
    exact congrArg List.flatten (List.map_congr_left (fun r _ => rfl))

end RoomStudentService

namespace Exporters

lemma validRecordB_dict_iff (keys : List String) :
    validRecordB (RawRecord.dict keys) = true ↔ firstMissingField keys = none := by
  simp [validRecordB, firstMissingField, List.find?_eq_none, List.all_eq_true]

lemma validate_output_data_ok_iff (data : List RawRecord) :
    ∀ i : Nat, validate_output_data i data = .ok true
      ↔ ∀ r ∈ data, validRecordB r = true := by
  induction data with
  | nil => intro i; simp [validate_output_data]
  | cons r rest ih =>
    intro i
    cases r with
    | notDict => simp [validate_output_data, validRecordB]
    | dict keys =>
      cases hf : firstMissingField keys with
      | some f =>
        simp only [validate_output_data, hf]
        constructor
        · intro h
          exact Except.noConfusion h
        · intro h
          have hv := h _ (List.mem_cons_self _ _)
          rw [validRecordB_dict_iff] at hv
          rw [hv] at hf
          exact Option.noConfusion hf
      | none =>
        simp [validate_output_data, hf, ih, validRecordB_dict_iff]

lemma validate_output_data_result (data : List RawRecord) :
    ∀ i, (∃ e, validate_output_data i data = .error e)
      ∨ validate_output_data i data = .ok true := by
  induction data with
  | nil => intro i; right; rfl
  | cons r rest ih =>
    intro i
    cases r with
    | notDict =>
      left
      exact ⟨"Record at index " ++ toString i ++ " must be a dictionary", rfl⟩
    | dict keys =>
      cases hf : firstMissingField keys with
      | some f =>
        left
        refine ⟨"Record at index " ++ toString i
          ++ " missing required field: " ++ f, ?_⟩
        simp [validate_output_data, hf]
      | none =>
        simpa [validate_output_data, hf] using ih (i + 1)

lemma validate_output_data_append (good : List RawRecord) :
    ∀ (n : Nat) (rest : List RawRecord),
      (∀ r ∈ good, validRecordB r = true) →
      validate_output_data n (good ++ rest)
        = validate_output_data (n + good.length) rest := by
  induction good with
  | nil => intro n rest _; simp
  | cons r g ih =>
    intro n rest hall
    cases r with
    | notDict =>
      exact absurd (hall _ (List.mem_cons_self _ _)) (by simp [validRecordB])
    | dict keys =>
      have hf : firstMissingField keys = none :=
        (validRecordB_dict_iff keys).mp (hall _ (List.mem_cons_self _ _))
      have hrec := ih (n + 1) rest (fun r hr => hall r (List.mem_cons_of_mem _ hr))
      have harith : n + 1 + g.length = n + (RawRecord.dict keys :: g).length := by
        simp only [List.length_cons]
        omega
      rw [harith] at hrec
      simp only [List.cons_append, validate_output_data, hf]
      simpa using hrec

end Exporters

open RoomStudentService in
/-- C1: for structurally valid inputs with no duplicate non-null ids,
`combine_data` returns a list of length `len(rooms) + 1` when some
student is unassigned (room reference null/absent or matching no room
id) and `len(rooms)` otherwise; in the former case the extra element is
the single trailing record with null id, name `"Unassigned Students"`,
holding all unassigned students. -/
theorem claim_C1 (students : List StudentRec) (rooms : List RoomRec)
    (hR : (roomIds rooms).Nodup) (hS : (studentIds students).Nodup) :
    ∃ out, combine_data students rooms = .ok out
      ∧ out.length
          = rooms.length + (if students.any (isUnassigned rooms) then 1 else 0)
      ∧ (students.any (isUnassigned rooms) = true →
          out.getLast?
            = some ⟨none, "Unassigned Students", unassignedList students rooms⟩) := by
  refine ⟨specOutput students rooms,
    combine_data_eq_specOutput students rooms hR hS, ?_, ?_⟩
  · unfold specOutput
    by_cases h : unassignedList students rooms = []
    · rw [if_pos h]
      have hany : students.any (isUnassigned rooms) = false :=
        (unassignedList_eq_nil_iff students rooms).mp h
      simp [hany]
    · rw [if_neg h]
      have hany : students.any (isUnassigned rooms) = true := by
        by_contra hcon
        exact h ((unassignedList_eq_nil_iff students rooms).mpr
          (by simpa using hcon))
      simp [hany]
  · intro hany
    have h : ¬unassignedList students rooms = [] := by
      intro hnil
      rw [(unassignedList_eq_nil_iff students rooms).mp hnil] at hany
      exact Bool.false_ne_true hany
    unfold specOutput
    rw [if_neg h]
    exact List.getLast?_concat _

open RoomStudentService in
/-- C1 witness: the spec's worked scenario (two rooms, one student in
room 1, one dangling reference, one without a room). -/
theorem claim_C1_witness :
    (roomIds [⟨some 1, "101"⟩, ⟨some 2, "102"⟩]).Nodup ∧
    ∃ out,
      combine_data
          [⟨some 1, "Alice", some 1⟩, ⟨some 2, "Bob", some 99⟩,
            ⟨some 3, "Carol", none⟩]
          [⟨some 1, "101"⟩, ⟨some 2, "102"⟩] = .ok out
        ∧ out.length = 2 + (if ([⟨some 1, "Alice", some 1⟩,
            ⟨some 2, "Bob", some 99⟩, ⟨some 3, "Carol", none⟩] :
              List StudentRec).any
                (isUnassigned [⟨some 1, "101"⟩, ⟨some 2, "102"⟩]) then 1 else 0)
        ∧ (([⟨some 1, "Alice", some 1⟩, ⟨some 2, "Bob", some 99⟩,
            ⟨some 3, "Carol", none⟩] : List StudentRec).any
              (isUnassigned [⟨some 1, "101"⟩, ⟨some 2, "102"⟩]) = true →
            out.getLast? = some ⟨none, "Unassigned Students",
              unassignedList
                [⟨some 1, "Alice", some 1⟩, ⟨some 2, "Bob", some 99⟩,
                  ⟨some 3, "Carol", none⟩]
                [⟨some 1, "101"⟩, ⟨some 2, "102"⟩]⟩) :=
  ⟨by decide, claim_C1 _ _ (by decide) (by decide)⟩

open RoomStudentService in
/-- C2: on valid inputs the output is exactly one record per input room,
in input order (empty rooms included), followed by the unassigned bucket
iff it is non-empty; each bucket lists its students in input order
(a stable filter of the student list, never sorted). -/
theorem claim_C2 (students : List StudentRec) (rooms : List RoomRec)
    (hR : (roomIds rooms).Nodup) (hS : (studentIds students).Nodup) :
    combine_data students rooms
      = .ok (rooms.map (combinedFor students) ++
          (if unassignedList students rooms = [] then []
           else [⟨none, "Unassigned Students", unassignedList students rooms⟩])) :=
  combine_data_eq_specOutput students rooms hR hS

open RoomStudentService in
/-- C2 witness: the spec's worked scenario, with the right-hand side
fully evaluated. -/
theorem claim_C2_witness :
    combine_data
        [⟨some 1, "Alice", some 1⟩, ⟨some 2, "Bob", some 99⟩,
          ⟨some 3, "Carol", none⟩]
        [⟨some 1, "101"⟩, ⟨some 2, "102"⟩]
      = .ok ([⟨some 1, "101"⟩, ⟨some 2, "102"⟩].map
            (combinedFor [⟨some 1, "Alice", some 1⟩, ⟨some 2, "Bob", some 99⟩,
              ⟨some 3, "Carol", none⟩]) ++
          (if unassignedList
              [⟨some 1, "Alice", some 1⟩, ⟨some 2, "Bob", some 99⟩,
                ⟨some 3, "Carol", none⟩]
              [⟨some 1, "101"⟩, ⟨some 2, "102"⟩] = [] then []
           else [⟨none, "Unassigned Students",
              unassignedList
                [⟨some 1, "Alice", some 1⟩, ⟨some 2, "Bob", some 99⟩,
                  ⟨some 3, "Carol", none⟩]
                [⟨some 1, "101"⟩, ⟨some 2, "102"⟩]⟩])) :=
  claim_C2 _ _ (by decide) (by decide)

open RoomStudentService in
/-- C3: a student whose room reference matches no room id is treated
exactly like a student with a null/absent room reference — replacing the
dangling reference by null leaves the whole result of `combine_data`
unchanged, and no error arises from the dangling reference. -/
theorem claim_C3 (a b : List StudentRec) (s : StudentRec) (k : Int)
    (rooms : List RoomRec) (hroom : s.room = some k)
    (hk : k ∉ roomIds rooms) :
    combine_data (a ++ s :: b) rooms
      = combine_data (a ++ { s with room := none } :: b) rooms := by
  have hcf : containsKey (build_room_lookup rooms) k = false := by
    simp [containsKey_build_room_lookup, hk]
  have hstep : ∀ acc, groupStep (build_room_lookup rooms) acc s
      = groupStep (build_room_lookup rooms) acc { s with room := none } := by
    intro acc
    simp [groupStep, hroom, hcf, projectStudent]
  have hgroup : group_students_by_room (a ++ s :: b) (build_room_lookup rooms)
      = group_students_by_room (a ++ { s with room := none } :: b)
          (build_room_lookup rooms) := by
    unfold group_students_by_room
    rw [List.foldl_append, List.foldl_append, List.foldl_cons, List.foldl_cons,
      hstep]
  have hval : validate_input_data (a ++ s :: b) rooms
      = validate_input_data (a ++ { s with room := none } :: b) rooms := by
    unfold validate_input_data validate_business_rules
    simp [List.filterMap_append, List.filterMap_cons]
  unfold combine_data
  rw [hval]
  cases hv : validate_input_data (a ++ { s with room := none } :: b) rooms with
  | error e => rfl
  | ok u => simp only [hgroup]

open RoomStudentService in
/-- C3 witness: turning Bob's dangling reference to room 99 into a null
reference leaves the output unchanged. -/
theorem claim_C3_witness :
    (99 : Int) ∉ roomIds [⟨some 1, "101"⟩] ∧
    combine_data ([] ++ ⟨some 2, "Bob", some 99⟩ :: [⟨some 3, "Carol", none⟩])
        [⟨some 1, "101"⟩]
      = combine_data
          ([] ++ (⟨some 2, "Bob", none⟩ : StudentRec) :: [⟨some 3, "Carol", none⟩])
          [⟨some 1, "101"⟩] :=
  ⟨by decide, claim_C3 [] [⟨some 3, "Carol", none⟩] ⟨some 2, "Bob", some 99⟩ 99
    [⟨some 1, "101"⟩] rfl (by decide)⟩

open RoomStudentService in
/-- C4: `combine_data` fails with a `ValidationError` naming the faulty
collection if and only if the non-null room ids or the non-null student
ids contain duplicates; on failure the error carries no output (the
`Except.error` branch holds no partial result by construction). -/
theorem claim_C4 (students : List StudentRec) (rooms : List RoomRec) :
    (¬(roomIds rooms).Nodup →
      combine_data students rooms = .error "Duplicate room IDs found") ∧
    ((roomIds rooms).Nodup → ¬(studentIds students).Nodup →
      combine_data students rooms = .error "Duplicate student IDs found") ∧
    ((roomIds rooms).Nodup → (studentIds students).Nodup →
      ∃ out, combine_data students rooms = .ok out) ∧
    (∀ e, combine_data students rooms = .error e →
      ¬(roomIds rooms).Nodup ∨ ¬(studentIds students).Nodup) := by
  refine ⟨?_, ?_, ?_, ?_⟩
  · intro hR
    unfold combine_data
    rw [validate_input_data_dup_rooms students rooms hR]
  · intro hR hS
    unfold combine_data
    rw [validate_input_data_dup_students students rooms hR hS]
  · intro hR hS
    exact ⟨specOutput students rooms,
      combine_data_eq_specOutput students rooms hR hS⟩
  · intro e herr
    by_contra hcon
    push_neg at hcon
    have hout := combine_data_eq_specOutput students rooms hcon.1 hcon.2
    rw [herr] at hout
    exact Except.noConfusion hout

open RoomStudentService in
/-- C4 witness: duplicate room ids and, separately, duplicate student
ids each produce the corresponding `ValidationError`. -/
theorem claim_C4_witness :
    combine_data [] [⟨some 7, "A"⟩, ⟨some 7, "B"⟩]
      = .error "Duplicate room IDs found" ∧
    combine_data [⟨some 1, "a", none⟩, ⟨some 1, "b", none⟩] []
      = .error "Duplicate student IDs found" :=
  ⟨(claim_C4 [] [⟨some 7, "A"⟩, ⟨some 7, "B"⟩]).1 (by decide),
    (claim_C4 [⟨some 1, "a", none⟩, ⟨some 1, "b", none⟩] []).2.1 (by decide)
      (by decide)⟩

/-- C5 counterexample: the claim says the controller's error-reporting
step receives the very error raised by the validation code; in reality
`CLIController._process_data` re-raises a new `ValidationError` whose
message is re-worded with a `"Data processing failed: "` prefix, so at
this concrete duplicate-id input the two messages differ. -/
theorem claim_C5_counterexample :
    RoomStudentService.combine_data
        [⟨some 1, "Alice", none⟩, ⟨some 1, "Bob", none⟩] []
      = .error "Duplicate student IDs found" ∧
    CLIController.process_data
        [⟨some 1, "Alice", none⟩, ⟨some 1, "Bob", none⟩] []
      = .error "Data processing failed: Duplicate student IDs found" ∧
    ("Data processing failed: Duplicate student IDs found" : String)
      ≠ "Duplicate student IDs found" :=
  ⟨rfl, rfl, by decide⟩

/-- C5 (amended): a `ValidationError` raised inside the combination
logic reaches the controller re-wrapped — `_process_data` catches it and
raises a new `ValidationError` whose message is the original message
prefixed with `"Data processing failed: "` (the original text is
preserved as a suffix, but the object and message are not the same). -/
theorem claim_C5_amended (students : List StudentRec) (rooms : List RoomRec)
    (e : String)
    (h : RoomStudentService.combine_data students rooms = .error e) :
    CLIController.process_data students rooms
      = .error ("Data processing failed: " ++ e) := by
  unfold CLIController.process_data
  rw [h]

/-- C5 amended witness: the duplicate-student-id error arrives at the
controller with the stage prefix. -/
theorem claim_C5_amended_witness :
    CLIController.process_data
        [⟨some 1, "Alice", none⟩, ⟨some 1, "Bob", none⟩] []
      = .error ("Data processing failed: " ++ "Duplicate student IDs found") :=
  claim_C5_amended [⟨some 1, "Alice", none⟩, ⟨some 1, "Bob", none⟩] []
    "Duplicate student IDs found" rfl

/-- C6: the claim says each special character of a name appears in the
exported XML document as a single standard entity, so parsing the
document back yields the original name.  The code escapes twice: the
name `"A&B"` is first turned into `"A&amp;B"` by `_escape_xml_content`,
and the serializers (`ElementTree.tostring` / `minidom.toprettyxml`)
escape that text again, so the document contains `"A&amp;amp;B"` and a
parser reads back `"A&amp;B"`, not `"A&B"`. -/
theorem claim_C6_bug :
    XMLExporter.nameDocText "A&B".toList = "A&amp;amp;B".toList ∧
    XMLExporter.xml_unescape (XMLExporter.nameDocText "A&B".toList)
      = "A&amp;B".toList ∧
    "A&amp;B".toList ≠ "A&B".toList :=
  ⟨rfl, rfl, by decide⟩

open DataExporterFactory in
/-- C7: requesting a format whose lowercased identifier is registered
under neither `"json"` nor `"xml"` (the default registry) raises
`UnsupportedFormatError` carrying the requested name and listing exactly
the registered identifiers `["json", "xml"]`. -/
theorem claim_C7 (format_name : String)
    (h1 : pyLower format_name ≠ "json") (h2 : pyLower format_name ≠ "xml") :
    create_exporter format_name
      = .error (mkUnsupportedFormatError format_name ["json", "xml"]) := by
  have hb1 : (pyLower format_name == "json") = false := by simp [h1]
  have hb2 : (pyLower format_name == "xml") = false := by simp [h2]
  unfold create_exporter exporters
  simp [List.lookup, hb1, hb2, exporters]

open DataExporterFactory in
/-- C7 witness: the spec scenario — requesting `"yaml"` raises the error
naming `"yaml"` and listing `["json", "xml"]`. -/
theorem claim_C7_witness :
    create_exporter "yaml"
      = .error (mkUnsupportedFormatError "yaml" ["json", "xml"]) :=
  claim_C7 "yaml" (by decide) (by decide)

open Exporters in
/-- C8: both exporters validate before writing: export succeeds with one
write exactly when every record is a dict carrying `id`, `name` and
`students`; when the first offending record (at index `len(good)`) is a
dict missing a field, or is not a dict, the call fails with a
`DataExportError` whose message names that index (and the missing
field), and performs zero writes to the destination. -/
theorem claim_C8 (data : List RawRecord) :
    ((∀ r ∈ data, validRecordB r = true) →
      JSONExporter_export data = ⟨.ok (), 1⟩ ∧
      XMLExporter_export data = ⟨.ok (), 1⟩) ∧
    ((∃ r ∈ data, ¬validRecordB r = true) →
      ∃ e, JSONExporter_export data
          = ⟨.error ("Failed to export JSON data: " ++ e), 0⟩ ∧
        XMLExporter_export data
          = ⟨.error ("Failed to export XML data: " ++ e), 0⟩) ∧
    (∀ good keys f rest,
      data = good ++ RawRecord.dict keys :: rest →
      (∀ r ∈ good, validRecordB r = true) →
      firstMissingField keys = some f →
      JSONExporter_export data
        = ⟨.error ("Failed to export JSON data: "
            ++ ("Record at index " ++ toString good.length
              ++ " missing required field: " ++ f)), 0⟩ ∧
      XMLExporter_export data
        = ⟨.error ("Failed to export XML data: "
            ++ ("Record at index " ++ toString good.length
              ++ " missing required field: " ++ f)), 0⟩) ∧
    (∀ good rest,
      data = good ++ RawRecord.notDict :: rest →
      (∀ r ∈ good, validRecordB r = true) →
      JSONExporter_export data
        = ⟨.error ("Failed to export JSON data: "
            ++ ("Record at index " ++ toString good.length
              ++ " must be a dictionary")), 0⟩ ∧
      XMLExporter_export data
        = ⟨.error ("Failed to export XML data: "
            ++ ("Record at index " ++ toString good.length
              ++ " must be a dictionary")), 0⟩) := by
  refine ⟨?_, ?_, ?_, ?_⟩
  · intro hall
    have hv : validate_output_data 0 data = .ok true :=
      (validate_output_data_ok_iff data 0).mpr hall
    constructor <;>
      simp [JSONExporter_export, XMLExporter_export, exportData, hv]
  · intro hbad
    rcases validate_output_data_result data 0 with ⟨e, he⟩ | hok
    · exact ⟨e, by simp [JSONExporter_export, exportData, he],
        by simp [XMLExporter_export, exportData, he]⟩
    · obtain ⟨r, hr, hnv⟩ := hbad
      exact absurd ((validate_output_data_ok_iff data 0).mp hok r hr) hnv
  · intro good keys f rest hdata hgood hf
    have hv : validate_output_data 0 data
        = .error ("Record at index " ++ toString good.length
            ++ " missing required field: " ++ f) := by
      rw [hdata, validate_output_data_append good 0 _ hgood]
      simp [validate_output_data, hf]
    constructor <;>
      simp [JSONExporter_export, XMLExporter_export, exportData, hv]
  · intro good rest hdata hgood
    have hv : validate_output_data 0 data
        = .error ("Record at index " ++ toString good.length
            ++ " must be a dictionary") := by
      rw [hdata, validate_output_data_append good 0 _ hgood]
      simp [validate_output_data]
    constructor <;>
      simp [JSONExporter_export, XMLExporter_export, exportData, hv]

open Exporters in
/-- C8 witness: a valid one-record list exports with one write; a list
whose second record lacks `name` fails with the message naming index 1
and field `name`, with zero writes. -/
theorem claim_C8_witness :
    (JSONExporter_export
        [RawRecord.dict ["id", "name", "students"]] = ⟨.ok (), 1⟩ ∧
      XMLExporter_export
        [RawRecord.dict ["id", "name", "students"]] = ⟨.ok (), 1⟩) ∧
    (JSONExporter_export
        [RawRecord.dict ["id", "name", "students"],
          RawRecord.dict ["id", "students"]]
      = ⟨.error ("Failed to export JSON data: "
          ++ ("Record at index " ++ toString (1 : Nat)
            ++ " missing required field: " ++ "name")), 0⟩ ∧
      XMLExporter_export
        [RawRecord.dict ["id", "name", "students"],
          RawRecord.dict ["id", "students"]]
      = ⟨.error ("Failed to export XML data: "
          ++ ("Record at index " ++ toString (1 : Nat)
            ++ " missing required field: " ++ "name")), 0⟩) :=
  ⟨(claim_C8 [RawRecord.dict ["id", "name", "students"]]).1
      (by decide),
    (claim_C8 [RawRecord.dict ["id", "name", "students"],
        RawRecord.dict ["id", "students"]]).2.2.1
      [RawRecord.dict ["id", "name", "students"]] ["id", "students"] "name" []
      rfl (by decide) (by decide)⟩

open RoomStudentService in
/-- C9: partition invariant — on every successful run each input student
contributes exactly one projected `{id, name}` entry (the `room` field
dropped by `projectStudent`) across all output buckets: the
concatenation of the output's student lists is a permutation of the
projected input students, and the bucket sizes sum to the number of
input students. -/
theorem claim_C9 (students : List StudentRec) (rooms : List RoomRec)
    (out : List CombinedRoom)
    (hR : (roomIds rooms).Nodup) (hS : (studentIds students).Nodup)
    (hout : combine_data students rooms = .ok out) :
    ((out.map (fun cr => cr.students)).flatten).Perm
        (students.map projectStudent) ∧
    (out.map (fun cr => cr.students.length)).sum = students.length := by
  have hspec := combine_data_eq_specOutput students rooms hR hS
  rw [hout] at hspec
  have hout2 : out = specOutput students rooms := Except.ok.inj hspec
  subst hout2
  have hperm0 := flatten_filter_perm (isUnassigned rooms) (rooms.map roomPred)
    students (fun s _ => exactly_one_pred rooms hR s)
  have hperm1 := hperm0.map projectStudent
  rw [List.map_append, List.map_flatten, List.map_map, List.map_map] at hperm1
  have hbuckets : rooms.map ((List.map projectStudent ∘
        fun p => students.filter p) ∘ roomPred)
      = rooms.map (fun r => bucketFor students r) :=
    List.map_congr_left (fun r _ => (bucketFor_eq_filter students r).symm)
  rw [hbuckets] at hperm1
  have hmain : (((specOutput students rooms).map
      (fun cr => cr.students)).flatten).Perm (students.map projectStudent) := by
    rw [specOutput_flatten]
    exact hperm1
  refine ⟨hmain, ?_⟩
  have hlen := hmain.length_eq
  rw [List.length_flatten, List.length_map, List.map_map] at hlen
  exact hlen

open RoomStudentService in
/-- C9 witness: the spec's worked scenario — three students end up as
three projected entries across the three buckets. -/
theorem claim_C9_witness :
    ((([⟨some 1, "101", [⟨some 1, "Alice"⟩]⟩, ⟨some 2, "102", []⟩,
        ⟨none, "Unassigned Students", [⟨some 2, "Bob"⟩, ⟨some 3, "Carol"⟩]⟩] :
          List CombinedRoom).map (fun cr => cr.students)).flatten).Perm
      (([⟨some 1, "Alice", some 1⟩, ⟨some 2, "Bob", some 99⟩,
        ⟨some 3, "Carol", none⟩] : List StudentRec).map projectStudent) ∧
    (([⟨some 1, "101", [⟨some 1, "Alice"⟩]⟩, ⟨some 2, "102", []⟩,
        ⟨none, "Unassigned Students", [⟨some 2, "Bob"⟩, ⟨some 3, "Carol"⟩]⟩] :
          List CombinedRoom).map (fun cr => cr.students.length)).sum
      = ([⟨some 1, "Alice", some 1⟩, ⟨some 2, "Bob", some 99⟩,
        ⟨some 3, "Carol", none⟩] : List StudentRec).length :=
  claim_C9
    [⟨some 1, "Alice", some 1⟩, ⟨some 2, "Bob", some 99⟩,
      ⟨some 3, "Carol", none⟩]
    [⟨some 1, "101"⟩, ⟨some 2, "102"⟩]
    [⟨some 1, "101", [⟨some 1, "Alice"⟩]⟩, ⟨some 2, "102", []⟩,
      ⟨none, "Unassigned Students", [⟨some 2, "Bob"⟩, ⟨some 3, "Carol"⟩]⟩]
    (by decide) (by decide) rfl

open RoomStudentService in
/-- C10: a room record with a present-but-null id passes validation
(null ids are excluded from the duplicate multiset), can never be
referenced by a student (the lookup skips it), and is still emitted at
its input position as a CombinedRoom with null id and empty student
list — so the output may hold null-id entries besides (and in addition
to) the synthetic unassigned bucket, several at once. -/
theorem claim_C10 (students : List StudentRec) (r1 r2 : List RoomRec)
    (room : RoomRec) (hid : room.id = none)
    (hR : (roomIds (r1 ++ room :: r2)).Nodup)
    (hS : (studentIds students).Nodup) :
    validate_input_data students (r1 ++ room :: r2) = .ok () ∧
    ∃ out, combine_data students (r1 ++ room :: r2) = .ok out ∧
      out[r1.length]? = some ⟨none, room.name, []⟩ := by
  refine ⟨validate_input_data_ok students _ hR hS,
    specOutput students (r1 ++ room :: r2),
    combine_data_eq_specOutput students _ hR hS, ?_⟩
  unfold specOutput
  have hlt : r1.length < ((r1 ++ room :: r2).map (combinedFor students)).length := by
    simp
  rw [List.getElem?_append, if_pos hlt]
  rw [List.map_append, List.map_cons]
  rw [List.getElem?_append, if_neg (by simp)]
  simp [combinedFor, bucketFor, hid]

open RoomStudentService in
/-- C10 witness: two null-id rooms at once, plus an unassigned student —
the output holds several null-id entries besides the synthetic bucket;
the second null-id room sits at index 1 with no students. -/
theorem claim_C10_witness :
    validate_input_data [⟨some 1, "s", none⟩]
        ([⟨none, "a"⟩] ++ (⟨none, "b"⟩ : RoomRec) :: []) = .ok () ∧
    ∃ out, combine_data [⟨some 1, "s", none⟩]
        ([⟨none, "a"⟩] ++ (⟨none, "b"⟩ : RoomRec) :: []) = .ok out ∧
      out[([⟨none, "a"⟩] : List RoomRec).length]? = some ⟨none, "b", []⟩ :=
  claim_C10 [⟨some 1, "s", none⟩] [⟨none, "a"⟩] [] ⟨none, "b"⟩ rfl
    (by decide) (by decide)
